import Mathlib

/-!
Verification of the file-logging core of this repository.

The first part embeds `FileLogger` from `src/vs/platform/log/common/fileLog.ts`:
a queue-serialized read-modify-write log writer with size-triggered rotation
into cyclic backup slots.  The second part embeds the channel client classes
from the log IPC module (`LoggerChannelClient`, the buffering proxy `Logger`,
and `FollowerLogService`).

The file system and the IPC channel are external collaborators of the
repository; they are modelled from the spec's interface contracts.  Effects on
the channel are recorded as an ordered list of issued calls; the file system is
an association list from resources to entries, where an entry may itself be a
read error (so read-failure behaviour is expressible).
-/

namespace VsLog

/-- Log levels, as enumerated by the logging module (`LogLevel` in
`vs/platform/log/common/log.ts`, per the spec's data model:
Trace, Debug, Info, Warning, Error, Off). -/
inductive LogLevel where
  | Trace
  | Debug
  | Info
  | Warning
  | Error
  | Off
deriving DecidableEq, Repr

/-- `FileLogger.stringifyLogLevel`: lower-case name for the five message
levels; the unmapped case (`Off`) falls through to the empty string. -/
def stringifyLogLevel : LogLevel → String
  | .Debug => "debug"
  | .Error => "error"
  | .Info => "info"
  | .Trace => "trace"
  | .Warning => "warning"
  | .Off => ""

/-- A point in time as observed through the JavaScript `Date` accessors used
by `FileLogger.getCurrentTimestamp`: `month` is the 0-based `getMonth()`
value, `date` is the day of month, the rest are the clock fields. -/
structure DateTime where
  fullYear : Nat
  month : Nat
  date : Nat
  hours : Nat
  minutes : Nat
  seconds : Nat
  milliseconds : Nat
deriving DecidableEq, Repr

/-- The `toTwoDigits` helper inside `FileLogger.getCurrentTimestamp`. -/
def toTwoDigits (v : Nat) : String :=
  if v < 10 then "0" ++ toString v else toString v

/-- The `toThreeDigits` helper inside `FileLogger.getCurrentTimestamp`. -/
def toThreeDigits (v : Nat) : String :=
  if v < 10 then "00" ++ toString v
  else if v < 100 then "0" ++ toString v
  else toString v

/-- `FileLogger.getCurrentTimestamp`, applied to an explicit `DateTime`
instead of `new Date()`: `YYYY-MM-DD HH:MM:SS.mmm` with `getMonth() + 1`
as the month number. -/
def getCurrentTimestamp (t : DateTime) : String :=
  toString t.fullYear ++ "-" ++ toTwoDigits (t.month + 1) ++ "-" ++ toTwoDigits t.date
    ++ " " ++ toTwoDigits t.hours ++ ":" ++ toTwoDigits t.minutes ++ ":"
    ++ toTwoDigits t.seconds ++ "." ++ toThreeDigits t.milliseconds

/-- A resource identifier (`URI`), kept structured so that `dirname`,
`basename` and `joinPath` from `vs/base/common/resources` are exact:
`dir` is the list of parent path segments, `name` the final segment. -/
structure URI where
  dir : List String
  name : String
deriving DecidableEq, Repr

/-- `dirname(resource)`: the parent path of a resource. -/
def dirname (u : URI) : List String := u.dir

/-- `basename(resource)`: the final path segment of a resource. -/
def basename (u : URI) : String := u.name

/-- `joinPath(dir, name)`: the resource for segment `name` under `dir`. -/
def joinPath (d : List String) (n : String) : URI := ⟨d, n⟩

/-- File-operation result codes from the storage collaborator contract
(`FileOperationResult` in `vs/platform/files/common/files`); the writer's
logic only distinguishes `FILE_MODIFIED_SINCE` from everything else. -/
inductive FileOperationResult where
  | FILE_MODIFIED_SINCE
  | FILE_NOT_FOUND
  | FILE_PERMISSION_DENIED
  | FILE_TOO_LARGE
  | FILE_OTHER_ERROR
deriving DecidableEq, Repr

/-- A `FileOperationError`: a message plus its typed result code. -/
structure FileOperationError where
  message : String
  fileOperationResult : FileOperationResult
deriving DecidableEq, Repr

/-- The backing file system: an association list from resources to entries.
An entry is `.ok content` for a readable file, or `.error e` for a resource
whose read fails with `e` (this lets read failures of any kind be modelled).
A later binding shadows an earlier one, so writes overwrite. -/
abbrev FS := List (URI × Except FileOperationError String)

/-- Look up the entry stored at a resource, if any. -/
def FS.lookup : FS → URI → Option (Except FileOperationError String)
  | [], _ => none
  | (r', v) :: rest, r => if r' = r then some v else FS.lookup rest r

/-- `fileService.writeFile(resource, content)`: store `content` at
`resource`, overwriting whatever was there. -/
def writeFile (fs : FS) (r : URI) (content : String) : FS :=
  (r, Except.ok content) :: fs

/-- `fileService.readFile(resource)`: the stored content, the stored read
error, or `FILE_NOT_FOUND` when the resource does not exist. -/
def readFile (fs : FS) (r : URI) : Except FileOperationError String :=
  match FS.lookup fs r with
  | some v => v
  | none => Except.error ⟨"File not found", .FILE_NOT_FOUND⟩

/-- Modelled from the spec: `fileService.createFile(resource)` of the storage
collaborator (not part of the sources under verification). Per the spec's
external-interface contract, creation of an already-existing resource fails
with `FILE_MODIFIED_SINCE` (the benign concurrent-creation race); otherwise
the resource is created empty. -/
def createFile (fs : FS) (r : URI) : Except FileOperationError FS :=
  match FS.lookup fs r with
  | some _ => Except.error ⟨"File already exists", .FILE_MODIFIED_SINCE⟩
  | none => Except.ok (writeFile fs r "")

/-- The production size ceiling: `MAX_FILE_SIZE = 5 * ByteSize.MB`. -/
def MAX_FILE_SIZE : Nat := 5 * 1024 * 1024

/-- The state of a `FileLogger`: its immutable resource and formatting flag,
its mutable `backupIndex` (initially 1), and its size ceiling (the source
fixes this to `MAX_FILE_SIZE`; it is a field so that the spec's configured
ceiling scenarios are expressible). -/
structure FileLogger where
  resource : URI
  donotUseFormatters : Bool
  maxFileSize : Nat := MAX_FILE_SIZE
  backupIndex : Nat := 1
deriving DecidableEq, Repr

/-- `FileLogger.getBackupResource`: wrap `backupIndex` back to 1 once it
exceeds 5, name the backup `<dirname>/<basename>_<slot>` for the current
slot, and post-increment the index.  Returns the backup resource together
with the updated logger state. -/
def FileLogger.getBackupResource (lg : FileLogger) : URI × FileLogger :=
  let idx := if lg.backupIndex > 5 then 1 else lg.backupIndex
  (joinPath (dirname lg.resource) (basename lg.resource ++ "_" ++ toString idx),
   { lg with backupIndex := idx + 1 })

/-- `FileLogger.loadContent`: read the resource, and on any read error return
the empty string instead of failing. -/
def loadContent (fs : FS) (r : URI) : String :=
  match readFile fs r with
  | .ok content => content
  | .error _ => ""

/-- The entry text appended by one `FileLogger.log` task: the raw message
verbatim when `donotUseFormatters` is set, otherwise
`<timestamp> [<levelname>] <message>\n`. -/
def renderEntry (donotUseFormatters : Bool) (now : DateTime) (level : LogLevel)
    (message : String) : String :=
  if donotUseFormatters then message
  else getCurrentTimestamp now ++ " [" ++ stringifyLogLevel level ++ "] " ++ message ++ "\n"

/-- The body of one queued task of `FileLogger.log` (fileLog.ts lines 48-61):
load the current content; if its length exceeds the ceiling, write it to the
current backup slot and reset content to empty; append the rendered entry;
write the result back to the resource. -/
def FileLogger.logTask (lg : FileLogger) (fs : FS) (now : DateTime) (level : LogLevel)
    (message : String) : FileLogger × FS :=
  let content := loadContent fs lg.resource
  if content.length > lg.maxFileSize then
    let backup := (FileLogger.getBackupResource lg).1
    let lg1 := (FileLogger.getBackupResource lg).2
    let fs1 := writeFile fs backup content
    (lg1, writeFile fs1 lg.resource ("" ++ renderEntry lg.donotUseFormatters now level message))
  else
    (lg, writeFile fs lg.resource (content ++ renderEntry lg.donotUseFormatters now level message))

/-- The catch block of `FileLogger.initialize`: a creation failure whose
result is `FILE_MODIFIED_SINCE` is swallowed (the promise resolves and the
file system is as it was before the call); any other failure is rethrown. -/
def handleCreateFileError (fs : FS) (res : Except FileOperationError FS) :
    Except FileOperationError FS :=
  match res with
  | .ok fs1 => .ok fs1
  | .error e =>
      if e.fileOperationResult = .FILE_MODIFIED_SINCE then .ok fs else .error e

/-- `FileLogger.initialize`: attempt to create the backing resource, with the
`FILE_MODIFIED_SINCE` failure swallowed. -/
def FileLogger.initFile (fs : FS) (r : URI) : Except FileOperationError FS :=
  handleCreateFileError fs (createFile fs r)

/-- One submitted message: the `Date` observed when its task renders the
entry, its level, and its text. -/
structure Msg where
  now : DateTime
  level : LogLevel
  message : String
deriving DecidableEq, Repr

/-- The `Queue` draining its tasks: strictly one at a time, in FIFO
submission order (the queue is `vs/base/common/async`'s `Queue`, an external
collaborator; per the spec, tasks for the same resource execute strictly one
at a time, in submission order). -/
def FileLogger.processAll (lg : FileLogger) (fs : FS) : List Msg → FileLogger × FS
  | [] => (lg, fs)
  | m :: rest =>
      let step := FileLogger.logTask lg fs m.now m.level m.message
      FileLogger.processAll step.1 step.2 rest

/-- Drain the queue given the settled initialization promise: every task
awaits it first, so a rejected promise surfaces as the failure of the first
attempted write and no file content changes. -/
def FileLogger.runFrom (initRes : Except FileOperationError FS) (lg : FileLogger)
    (msgs : List Msg) : Except FileOperationError (FileLogger × FS) :=
  match initRes with
  | .ok fs => .ok (FileLogger.processAll lg fs msgs)
  | .error e => .error e

/-- A whole `FileLogger` run: initialization (started in the constructor,
awaited inside each task) followed by the queued tasks in submission order. -/
def FileLogger.run (lg : FileLogger) (fs : FS) (msgs : List Msg) :
    Except FileOperationError (FileLogger × FS) :=
  FileLogger.runFrom (FileLogger.initFile fs lg.resource) lg msgs

/-- The in-order concatenation of the rendered entries of a message list. -/
def renderAll (donotUseFormatters : Bool) : List Msg → String
  | [] => ""
  | m :: rest => renderEntry donotUseFormatters m.now m.level m.message
      ++ renderAll donotUseFormatters rest

/-- The sequence of backup resources chosen by `n` consecutive rotations. -/
def FileLogger.backupSeq (lg : FileLogger) : Nat → List URI
  | 0 => []
  | n + 1 =>
      (FileLogger.getBackupResource lg).1
        :: FileLogger.backupSeq (FileLogger.getBackupResource lg).2 n

/-- The content of the primary file after a whole run, or the error the run
surfaced. -/
def runPrimaryContent (lg : FileLogger) (fs : FS) (msgs : List Msg) :
    Except FileOperationError String :=
  match FileLogger.run lg fs msgs with
  | .ok p => readFile p.2 lg.resource
  | .error e => .error e

/-- The entry stored at an arbitrary resource after a whole run (`none` when
the run surfaced an error or the resource does not exist). -/
def runFileEntry (lg : FileLogger) (fs : FS) (msgs : List Msg) (r : URI) :
    Option (Except FileOperationError String) :=
  match FileLogger.run lg fs msgs with
  | .ok p => FS.lookup p.2 r
  | .error _ => none

/-- A logger record (`ILoggerResource`): the registered resource with its
level and visibility, as kept by the logger directory. -/
structure LoggerRec where
  resource : URI
  logLevel : LogLevel
  visible : Bool
deriving DecidableEq, Repr

/-- Modelled from the spec: the logger directory kept by
`AbstractLoggerService` (`vs/platform/log/common/log.ts`, not among the
sources under verification) — the process-local record of known loggers,
their levels, and visibility. -/
abbrev Directory := List LoggerRec

/-- Modelled from the spec: the superclass mutation `registerLogger` — add a
`LoggerRec`, keyed by resource (already-present resources are not duplicated). -/
def Directory.registerLogger (d : Directory) (rec : LoggerRec) : Directory :=
  if d.any (fun x => x.resource = rec.resource) then d else d ++ [rec]

/-- Modelled from the spec: the superclass mutation `deregisterLogger` —
remove the record registered at a resource. -/
def Directory.deregisterLogger (d : Directory) (r : URI) : Directory :=
  d.filter (fun x => x.resource ≠ r)

/-- Modelled from the spec: the superclass mutation `setLogLevel` — set that
specific logger's effective level. -/
def Directory.setLogLevel (d : Directory) (r : URI) (l : LogLevel) : Directory :=
  d.map (fun x => if x.resource = r then { x with logLevel := l } else x)

/-- Modelled from the spec: the superclass mutation `setVisibility` — toggle
whether a logger's output is surfaced. -/
def Directory.setVisibility (d : Directory) (r : URI) (v : Bool) : Directory :=
  d.map (fun x => if x.resource = r then { x with visible := v } else x)

/-- One call issued on the IPC channel (`channel.call(command, args)`), with
the command name and its arguments fused into one constructor per command. -/
inductive ChannelCall where
  | createLogger (file : URI)
  | log (file : URI) (messages : List (LogLevel × String))
  | registerLogger (logger : LoggerRec) (windowId : Option Nat)
  | deregisterLogger (resource : URI) (windowId : Option Nat)
  | setLogLevel (resource : URI) (logLevel : LogLevel)
  | setVisibility (resource : URI) (visibility : Bool)
  | setLevel (level : LogLevel)
deriving DecidableEq, Repr

/-- The observable state of a `LoggerChannelClient`: its window identifier,
its local directory (inherited from `AbstractLoggerService`), and the ordered
list of calls it has issued on its channel. -/
structure LoggerChannelClient where
  windowId : Option Nat
  directory : Directory
  sent : List ChannelCall
deriving DecidableEq, Repr

/-- The `onDidChangeLogLevel` event handler installed by the
`LoggerChannelClient` constructor: apply `super.setLogLevel` to the local
directory; nothing is sent on the channel. -/
def LoggerChannelClient.onLogLevelEvent (st : LoggerChannelClient) (resource : URI)
    (logLevel : LogLevel) : LoggerChannelClient :=
  { st with directory := Directory.setLogLevel st.directory resource logLevel }

/-- The `onDidChangeVisibility` event handler installed by the constructor:
apply `super.setVisibility` to the local directory; nothing is sent. -/
def LoggerChannelClient.onVisibilityEvent (st : LoggerChannelClient) (resource : URI)
    (visibility : Bool) : LoggerChannelClient :=
  { st with directory := Directory.setVisibility st.directory resource visibility }

/-- The `onDidChangeLoggers` event handler installed by the constructor: for
each added record apply `super.registerLogger`, then for each removed record
apply `super.deregisterLogger` on its resource; nothing is sent. -/
def LoggerChannelClient.onLoggersEvent (st : LoggerChannelClient)
    (added removed : List LoggerRec) : LoggerChannelClient :=
  let afterAdds := added.foldl Directory.registerLogger st.directory
  { st with directory :=
      (removed.map (fun x => x.resource)).foldl Directory.deregisterLogger afterAdds }

/-- The overridden `LoggerChannelClient.registerLogger`: apply the superclass
mutation locally, then issue one `registerLogger` channel call. -/
def LoggerChannelClient.registerLogger (st : LoggerChannelClient)
    (logger : LoggerRec) : LoggerChannelClient :=
  { st with directory := Directory.registerLogger st.directory logger,
            sent := st.sent ++ [ChannelCall.registerLogger logger st.windowId] }

/-- The overridden `LoggerChannelClient.deregisterLogger`: apply the
superclass mutation locally, then issue one `deregisterLogger` channel call. -/
def LoggerChannelClient.deregisterLogger (st : LoggerChannelClient)
    (resource : URI) : LoggerChannelClient :=
  { st with directory := Directory.deregisterLogger st.directory resource,
            sent := st.sent ++ [ChannelCall.deregisterLogger resource st.windowId] }

/-- The overridden `LoggerChannelClient.setLogLevel`: apply the superclass
mutation locally, then issue one `setLogLevel` channel call. -/
def LoggerChannelClient.setLogLevel (st : LoggerChannelClient) (resource : URI)
    (logLevel : LogLevel) : LoggerChannelClient :=
  { st with directory := Directory.setLogLevel st.directory resource logLevel,
            sent := st.sent ++ [ChannelCall.setLogLevel resource logLevel] }

/-- The overridden `LoggerChannelClient.setVisibility`: apply the superclass
mutation locally, then issue one `setVisibility` channel call. -/
def LoggerChannelClient.setVisibility (st : LoggerChannelClient) (resource : URI)
    (visibility : Bool) : LoggerChannelClient :=
  { st with directory := Directory.setVisibility st.directory resource visibility,
            sent := st.sent ++ [ChannelCall.setVisibility resource visibility] }

/-- The observable state of the remote-proxy `Logger`: its file, the
`isLoggerCreated` switch, the in-memory buffer, and the ordered list of
calls issued on its channel. -/
structure Logger where
  file : URI
  isLoggerCreated : Bool
  buffer : List (LogLevel × String)
  sent : List ChannelCall
deriving DecidableEq, Repr

/-- The `Logger` constructor: the switch starts false, the buffer empty, and
one `createLogger` channel call is issued. -/
def Logger.create (file : URI) : Logger :=
  { file := file, isLoggerCreated := false, buffer := [],
    sent := [ChannelCall.createLogger file] }

/-- `Logger.doLog`: issue one `log` channel call carrying the messages. -/
def Logger.doLog (st : Logger) (messages : List (LogLevel × String)) : Logger :=
  { st with sent := st.sent ++ [ChannelCall.log st.file messages] }

/-- The protected `Logger.log`: forward the single message directly when the
remote logger has been created, otherwise push it onto the buffer. -/
def Logger.logMsg (st : Logger) (level : LogLevel) (message : String) : Logger :=
  if st.isLoggerCreated then Logger.doLog st [(level, message)]
  else { st with buffer := st.buffer ++ [(level, message)] }

/-- The `createLogger` completion callback: `doLog` the whole buffer, then
set `isLoggerCreated`. -/
def Logger.onCreated (st : Logger) : Logger :=
  { Logger.doLog st st.buffer with isLoggerCreated := true }

/-- An external event observed by the proxy `Logger`: a message submitted by
a producer, or the completion of the `createLogger` channel call. -/
inductive LoggerEvent where
  | msg (level : LogLevel) (message : String)
  | created
deriving DecidableEq, Repr

/-- Apply one event to the proxy `Logger`. -/
def Logger.step (st : Logger) : LoggerEvent → Logger
  | .msg level message => Logger.logMsg st level message
  | .created => Logger.onCreated st

/-- Apply a sequence of events in arrival order. -/
def Logger.runEvents (st : Logger) (evs : List LoggerEvent) : Logger :=
  evs.foldl Logger.step st

/-- The messages carried by a list of events, in arrival order. -/
def msgsOf : List LoggerEvent → List (LogLevel × String)
  | [] => []
  | .msg level message :: rest => (level, message) :: msgsOf rest
  | .created :: rest => msgsOf rest

/-- Whether every event in the list is a message submission. -/
def onlyMsgs (evs : List LoggerEvent) : Bool :=
  evs.all fun e => match e with | .msg _ _ => true | .created => false

/-- The in-order concatenation of the payloads of the `log` calls in a list
of channel calls. -/
def logPayloads : List ChannelCall → List (LogLevel × String)
  | [] => []
  | .log _ messages :: rest => messages ++ logPayloads rest
  | _ :: rest => logPayloads rest

/-- A primitive effect of `FollowerLogService`: either the superclass path
that sets the wrapped local log service's level (`super.setLevel`, and the
remote-change handler's `logService.setLevel`), or the notification of the
remote parent peer (`parent.setLevel`, a `setLevel` channel call). -/
inductive FollowerEffect where
  | setLocalLevel (level : LogLevel)
  | notifyParent (level : LogLevel)
deriving DecidableEq, Repr

/-- The observable state of a `FollowerLogService`: the wrapped local
service's current level and the ordered trace of primitive effects. -/
structure FollowerState where
  localLevel : LogLevel
  effects : List FollowerEffect
deriving DecidableEq, Repr

/-- Modelled from the spec: `super.setLevel` of `LogService` (in
`vs/platform/log/common/log.ts`, not among the sources under verification) —
set the wrapped local log service's level. -/
def FollowerState.superSetLevel (st : FollowerState) (level : LogLevel) : FollowerState :=
  { localLevel := level, effects := st.effects ++ [FollowerEffect.setLocalLevel level] }

/-- `parent.setLevel(level)`: notify the remote parent peer (a `setLevel`
channel call through `LogLevelChannelClient`). -/
def FollowerState.parentSetLevel (st : FollowerState) (level : LogLevel) : FollowerState :=
  { st with effects := st.effects ++ [FollowerEffect.notifyParent level] }

/-- The overridden `FollowerLogService.setLevel`: `super.setLevel(level)`
first, then `parent.setLevel(level)`. -/
def FollowerState.setLevel (st : FollowerState) (level : LogLevel) : FollowerState :=
  FollowerState.parentSetLevel (FollowerState.superSetLevel st level) level

/-- The handler registered on `parent.onDidChangeLogLevel`: apply the level
to the wrapped local log service (`logService.setLevel(level)`); the parent
is not notified back. -/
def FollowerState.onParentLevelChanged (st : FollowerState) (level : LogLevel) :
    FollowerState :=
  FollowerState.superSetLevel st level

/-! ## Helper lemmas -/

theorem lookup_writeFile_self (fs : FS) (r : URI) (c : String) :
    FS.lookup (writeFile fs r c) r = some (Except.ok c) := by
  simp [writeFile, FS.lookup]

theorem lookup_writeFile_other (fs : FS) (r r' : URI) (c : String) (h : r ≠ r') :
    FS.lookup (writeFile fs r c) r' = FS.lookup fs r' := by
  simp [writeFile, FS.lookup, h]

theorem readFile_writeFile_self (fs : FS) (r : URI) (c : String) :
    readFile (writeFile fs r c) r = Except.ok c := by
  simp [readFile, lookup_writeFile_self]

theorem readFile_writeFile_other (fs : FS) (r r' : URI) (c : String) (h : r ≠ r') :
    readFile (writeFile fs r c) r' = readFile fs r' := by
  simp [readFile, lookup_writeFile_other fs r r' c h]

theorem loadContent_of_readFile_ok (fs : FS) (r : URI) (c : String)
    (h : readFile fs r = Except.ok c) : loadContent fs r = c := by
  simp [loadContent, h]

theorem backupResource_ne_resource (lg : FileLogger) :
    (FileLogger.getBackupResource lg).1 ≠ lg.resource := by
  intro h
  have hname := congrArg URI.name h
  simp only [FileLogger.getBackupResource, joinPath, basename] at hname
  have := congrArg String.length hname
  have hu : "_".length = 1 := rfl
  simp only [String.length_append, hu] at this
  omega

theorem processAll_content (lg : FileLogger) (msgs : List Msg) :
    ∀ (fs : FS) (c : String),
      readFile fs lg.resource = Except.ok c →
      c.length + (renderAll lg.donotUseFormatters msgs).length ≤ lg.maxFileSize →
      (FileLogger.processAll lg fs msgs).1 = lg
      ∧ readFile (FileLogger.processAll lg fs msgs).2 lg.resource
          = Except.ok (c ++ renderAll lg.donotUseFormatters msgs) := by
  induction msgs with
  | nil =>
      intro fs c hc _
      refine ⟨rfl, ?_⟩
      simpa [FileLogger.processAll, renderAll, String.append_empty] using hc
  | cons m rest ih =>
      intro fs c hc hlen
      have hload := loadContent_of_readFile_ok fs lg.resource c hc
      have hentry : renderAll lg.donotUseFormatters (m :: rest)
          = renderEntry lg.donotUseFormatters m.now m.level m.message
            ++ renderAll lg.donotUseFormatters rest := rfl
      have hlen' : c.length
          + ((renderEntry lg.donotUseFormatters m.now m.level m.message).length
            + (renderAll lg.donotUseFormatters rest).length) ≤ lg.maxFileSize := by
        simpa [hentry, String.length_append] using hlen
      have hnorot : ¬ c.length > lg.maxFileSize := by omega
      have hstep : FileLogger.logTask lg fs m.now m.level m.message
          = (lg, writeFile fs lg.resource
              (c ++ renderEntry lg.donotUseFormatters m.now m.level m.message)) := by
        simp [FileLogger.logTask, hload, hnorot]
      have hproc : FileLogger.processAll lg fs (m :: rest)
          = FileLogger.processAll lg
              (writeFile fs lg.resource
                (c ++ renderEntry lg.donotUseFormatters m.now m.level m.message)) rest := by
        simp [FileLogger.processAll, hstep]
      have hc' := readFile_writeFile_self fs lg.resource
        (c ++ renderEntry lg.donotUseFormatters m.now m.level m.message)
      have hlen'' : (c ++ renderEntry lg.donotUseFormatters m.now m.level m.message).length
          + (renderAll lg.donotUseFormatters rest).length ≤ lg.maxFileSize := by
        rw [String.length_append]; omega
      have hmain := ih _ _ hc' hlen''
      rw [hproc, hentry]
      exact ⟨hmain.1, by rw [hmain.2, String.append_assoc]⟩

theorem runEvents_buffer_phase (evs : List LoggerEvent) :
    ∀ (st : Logger), onlyMsgs evs = true → st.isLoggerCreated = false →
      Logger.runEvents st evs = { st with buffer := st.buffer ++ msgsOf evs } := by
  induction evs with
  | nil =>
      intro st _ _
      simp [Logger.runEvents, msgsOf]
  | cons e rest ih =>
      intro st hall hcreated
      cases e with
      | msg l m =>
          have hrest : onlyMsgs rest = true := by
            simpa [onlyMsgs] using hall
          have hstep : Logger.step st (LoggerEvent.msg l m)
              = { st with buffer := st.buffer ++ [(l, m)] } := by
            simp [Logger.step, Logger.logMsg, hcreated]
          have hrun : Logger.runEvents st (LoggerEvent.msg l m :: rest)
              = Logger.runEvents { st with buffer := st.buffer ++ [(l, m)] } rest := by
            simp [Logger.runEvents, hstep]
          rw [hrun, ih _ hrest (by simpa using hcreated)]
          simp [msgsOf]
      | created =>
          simp [onlyMsgs] at hall

theorem runEvents_passthrough_phase (evs : List LoggerEvent) :
    ∀ (st : Logger), onlyMsgs evs = true → st.isLoggerCreated = true →
      Logger.runEvents st evs
        = { st with sent := st.sent
            ++ (msgsOf evs).map (fun p => ChannelCall.log st.file [p]) } := by
  induction evs with
  | nil =>
      intro st _ _
      simp [Logger.runEvents, msgsOf]
  | cons e rest ih =>
      intro st hall hcreated
      cases e with
      | msg l m =>
          have hrest : onlyMsgs rest = true := by
            simpa [onlyMsgs] using hall
          have hstep : Logger.step st (LoggerEvent.msg l m)
              = { st with sent := st.sent ++ [ChannelCall.log st.file [(l, m)]] } := by
            simp [Logger.step, Logger.logMsg, Logger.doLog, hcreated]
          have hrun : Logger.runEvents st (LoggerEvent.msg l m :: rest)
              = Logger.runEvents
                  { st with sent := st.sent ++ [ChannelCall.log st.file [(l, m)]] } rest := by
            simp [Logger.runEvents, hstep]
          rw [hrun, ih _ hrest (by simpa using hcreated)]
          simp [msgsOf]
      | created =>
          simp [onlyMsgs] at hall

theorem logPayloads_map_singleton (f : URI) (l : List (LogLevel × String)) :
    logPayloads (l.map (fun p => ChannelCall.log f [p])) = l := by
  induction l with
  | nil => rfl
  | cons p rest ih => simp [logPayloads, ih]

/-! ## Claim theorems -/

/-- C3: for every `FileLogger` starting from its initial backup index, six
consecutive rotations write to backup files named `<dirname>/<basename>_<slot>`
with slots 1, 2, 3, 4, 5, 1 in that order; each rotation overwrites any prior
backup at the chosen slot. -/
theorem backup_slots_cycle_one_to_five :
    (∀ (d : List String) (n : String) (dnf : Bool) (m : Nat),
      FileLogger.backupSeq
          { resource := ⟨d, n⟩, donotUseFormatters := dnf, maxFileSize := m } 6
        = [joinPath d (n ++ "_" ++ toString 1), joinPath d (n ++ "_" ++ toString 2),
           joinPath d (n ++ "_" ++ toString 3), joinPath d (n ++ "_" ++ toString 4),
           joinPath d (n ++ "_" ++ toString 5), joinPath d (n ++ "_" ++ toString 1)])
    ∧ (∀ (fs : FS) (r : URI) (c : String), readFile (writeFile fs r c) r = Except.ok c) := by
  exact ⟨fun d n dnf m => rfl, readFile_writeFile_self⟩

/-- C4: with `donotUseFormatters`, the raw message is appended verbatim (so
logging "x" then "y" yields file content exactly "xy"); otherwise the entry is
`<timestamp> [<levelname>] <message>\n`, where the timestamp has zero-padded
two-digit date/time fields and a three-digit millisecond field, and the level
name is the lower-case one among trace, debug, info, warning, error, with the
`Off`/unmapped case rendering as the empty string. -/
theorem log_entry_formatting :
    (∀ (now : DateTime) (level : LogLevel) (message : String),
        renderEntry true now level message = message)
    ∧ runPrimaryContent { resource := ⟨["logs"], "x.log"⟩, donotUseFormatters := true } []
        [⟨⟨2024, 0, 5, 9, 7, 3, 42⟩, LogLevel.Info, "x"⟩,
         ⟨⟨2024, 0, 5, 9, 7, 3, 42⟩, LogLevel.Info, "y"⟩] = Except.ok "xy"
    ∧ (∀ (now : DateTime) (level : LogLevel) (message : String),
        renderEntry false now level message
          = getCurrentTimestamp now ++ " [" ++ stringifyLogLevel level ++ "] "
              ++ message ++ "\n")
    ∧ getCurrentTimestamp ⟨2024, 0, 5, 9, 7, 3, 42⟩ = "2024-01-05 09:07:03.042"
    ∧ getCurrentTimestamp ⟨2025, 10, 23, 14, 30, 59, 123⟩ = "2025-11-23 14:30:59.123"
    ∧ stringifyLogLevel LogLevel.Trace = "trace"
    ∧ stringifyLogLevel LogLevel.Debug = "debug"
    ∧ stringifyLogLevel LogLevel.Info = "info"
    ∧ stringifyLogLevel LogLevel.Warning = "warning"
    ∧ stringifyLogLevel LogLevel.Error = "error"
    ∧ stringifyLogLevel LogLevel.Off = "" := by
  exact ⟨fun now level message => rfl, rfl, fun now level message => rfl,
    rfl, rfl, rfl, rfl, rfl, rfl, rfl, rfl⟩

/-- C7: the requester `LoggerChannelClient` applies each of the three remote
events (`onDidChangeLogLevel`, `onDidChangeVisibility`, `onDidChangeLoggers`)
to its local directory through the superclass mutation path without issuing
any channel call, while each of its four overridden mutation methods applies
the superclass mutation locally and issues exactly one corresponding channel
call. -/
theorem channel_client_events_vs_local_mutations :
    (∀ (st : LoggerChannelClient) (r : URI) (l : LogLevel),
        (LoggerChannelClient.onLogLevelEvent st r l).sent = st.sent
        ∧ (LoggerChannelClient.onLogLevelEvent st r l).directory
            = Directory.setLogLevel st.directory r l)
    ∧ (∀ (st : LoggerChannelClient) (r : URI) (v : Bool),
        (LoggerChannelClient.onVisibilityEvent st r v).sent = st.sent
        ∧ (LoggerChannelClient.onVisibilityEvent st r v).directory
            = Directory.setVisibility st.directory r v)
    ∧ (∀ (st : LoggerChannelClient) (added removed : List LoggerRec),
        (LoggerChannelClient.onLoggersEvent st added removed).sent = st.sent
        ∧ (LoggerChannelClient.onLoggersEvent st added removed).directory
            = (removed.map (fun x => x.resource)).foldl Directory.deregisterLogger
                (added.foldl Directory.registerLogger st.directory))
    ∧ (∀ (st : LoggerChannelClient) (rec : LoggerRec),
        (LoggerChannelClient.registerLogger st rec).directory
            = Directory.registerLogger st.directory rec
        ∧ (LoggerChannelClient.registerLogger st rec).sent
            = st.sent ++ [ChannelCall.registerLogger rec st.windowId])
    ∧ (∀ (st : LoggerChannelClient) (r : URI),
        (LoggerChannelClient.deregisterLogger st r).directory
            = Directory.deregisterLogger st.directory r
        ∧ (LoggerChannelClient.deregisterLogger st r).sent
            = st.sent ++ [ChannelCall.deregisterLogger r st.windowId])
    ∧ (∀ (st : LoggerChannelClient) (r : URI) (l : LogLevel),
        (LoggerChannelClient.setLogLevel st r l).directory
            = Directory.setLogLevel st.directory r l
        ∧ (LoggerChannelClient.setLogLevel st r l).sent
            = st.sent ++ [ChannelCall.setLogLevel r l])
    ∧ (∀ (st : LoggerChannelClient) (r : URI) (v : Bool),
        (LoggerChannelClient.setVisibility st r v).directory
            = Directory.setVisibility st.directory r v
        ∧ (LoggerChannelClient.setVisibility st r v).sent
            = st.sent ++ [ChannelCall.setVisibility r v]) := by
  exact ⟨fun st r l => ⟨rfl, rfl⟩, fun st r v => ⟨rfl, rfl⟩,
    fun st added removed => ⟨rfl, rfl⟩, fun st rec => ⟨rfl, rfl⟩,
    fun st r => ⟨rfl, rfl⟩, fun st r l => ⟨rfl, rfl⟩, fun st r v => ⟨rfl, rfl⟩⟩

/-- C9: `FollowerLogService.setLevel` first sets the wrapped local service's
level and then notifies the remote parent peer, in that order; a level-change
notification received from the parent is applied to the wrapped local service
only, without notifying the parent back. -/
theorem follower_sets_local_then_notifies_parent :
    (∀ (st : FollowerState) (level : LogLevel),
        FollowerState.setLevel st level
          = { localLevel := level,
              effects := st.effects
                ++ [FollowerEffect.setLocalLevel level, FollowerEffect.notifyParent level] })
    ∧ (∀ (st : FollowerState) (level : LogLevel),
        FollowerState.onParentLevelChanged st level
          = { localLevel := level,
              effects := st.effects ++ [FollowerEffect.setLocalLevel level] }) := by
  constructor
  · intro st level
    simp [FollowerState.setLevel, FollowerState.superSetLevel, FollowerState.parentSetLevel]
  · intro st level
    rfl

/-- C10: when the `createLogger` channel call completes, the proxy `Logger`
unconditionally issues exactly one `log` channel call carrying the whole
buffer — in particular, when no message was logged before completion, a `log`
call with an empty message list is still sent. -/
theorem created_callback_sends_single_log_call :
    (∀ (st : Logger),
        (Logger.onCreated st).sent = st.sent ++ [ChannelCall.log st.file st.buffer]
        ∧ (Logger.onCreated st).isLoggerCreated = true)
    ∧ (∀ (file : URI),
        (Logger.onCreated (Logger.create file)).sent
          = [ChannelCall.createLogger file, ChannelCall.log file []]) := by
  exact ⟨fun st => ⟨rfl, rfl⟩, fun file => rfl⟩

/-- C5: if reading the backing resource fails — with any error — the prior
content is treated as the empty string and the queued write task still
succeeds: the logger state is untouched and the resulting primary file content
is exactly the newly rendered entry, with no stale content. -/
theorem read_failure_treated_as_empty (lg : FileLogger) (fs : FS) (now : DateTime)
    (level : LogLevel) (message : String) (e : FileOperationError)
    (h : readFile fs lg.resource = Except.error e) :
    (FileLogger.logTask lg fs now level message).1 = lg
    ∧ readFile (FileLogger.logTask lg fs now level message).2 lg.resource
        = Except.ok (renderEntry lg.donotUseFormatters now level message) := by
  have hload : loadContent fs lg.resource = "" := by
    simp [loadContent, h]
  have hnorot : ¬ ("" : String).length > lg.maxFileSize := by
    simp
  constructor
  · simp [FileLogger.logTask, hload, hnorot]
  · simp [FileLogger.logTask, hload, hnorot, readFile_writeFile_self, String.empty_append]

theorem read_failure_treated_as_empty_witness :
    readFile [(⟨["logs"], "app.log"⟩,
        Except.error ⟨"boom", FileOperationResult.FILE_PERMISSION_DENIED⟩)]
      (⟨["logs"], "app.log"⟩ : URI)
        = Except.error ⟨"boom", FileOperationResult.FILE_PERMISSION_DENIED⟩
    ∧ ((FileLogger.logTask { resource := ⟨["logs"], "app.log"⟩, donotUseFormatters := true }
          [(⟨["logs"], "app.log"⟩,
            Except.error ⟨"boom", FileOperationResult.FILE_PERMISSION_DENIED⟩)]
          ⟨2024, 0, 5, 9, 7, 3, 42⟩ LogLevel.Info "m").1
        = { resource := ⟨["logs"], "app.log"⟩, donotUseFormatters := true }
      ∧ readFile (FileLogger.logTask
            { resource := ⟨["logs"], "app.log"⟩, donotUseFormatters := true }
            [(⟨["logs"], "app.log"⟩,
              Except.error ⟨"boom", FileOperationResult.FILE_PERMISSION_DENIED⟩)]
            ⟨2024, 0, 5, 9, 7, 3, 42⟩ LogLevel.Info "m").2
          (⟨["logs"], "app.log"⟩ : URI)
        = Except.ok (renderEntry true ⟨2024, 0, 5, 9, 7, 3, 42⟩ LogLevel.Info "m")) := by
  exact ⟨rfl, read_failure_treated_as_empty
    { resource := ⟨["logs"], "app.log"⟩, donotUseFormatters := true }
    [(⟨["logs"], "app.log"⟩,
      Except.error ⟨"boom", FileOperationResult.FILE_PERMISSION_DENIED⟩)]
    ⟨2024, 0, 5, 9, 7, 3, 42⟩ LogLevel.Info "m"
    ⟨"boom", FileOperationResult.FILE_PERMISSION_DENIED⟩ rfl⟩

/-- C6: the initialization of `FileLogger` swallows exactly the creation
failure whose result is `FILE_MODIFIED_SINCE`; any other creation failure is
rethrown and, because every queued task awaits the initialization promise,
surfaces as the failure of the first attempted write; re-running creation when
the resource already exists never fails. -/
theorem swallow_modified_since_on_create :
    (∀ (fs : FS) (e : FileOperationError),
        e.fileOperationResult = FileOperationResult.FILE_MODIFIED_SINCE →
        handleCreateFileError fs (Except.error e) = Except.ok fs)
    ∧ (∀ (fs : FS) (e : FileOperationError),
        e.fileOperationResult ≠ FileOperationResult.FILE_MODIFIED_SINCE →
        handleCreateFileError fs (Except.error e) = Except.error e)
    ∧ (∀ (fs : FS) (r : URI) (fs1 : FS),
        FileLogger.initFile fs r = Except.ok fs1 →
        FileLogger.initFile fs1 r = Except.ok fs1)
    ∧ (∀ (e : FileOperationError) (lg : FileLogger) (msgs : List Msg),
        FileLogger.runFrom (Except.error e) lg msgs = Except.error e) := by
  refine ⟨?_, ?_, ?_, ?_⟩
  · intro fs e he
    simp [handleCreateFileError, he]
  · intro fs e he
    simp [handleCreateFileError, he]
  · intro fs r fs1 h
    cases hl : FS.lookup fs r with
    | none =>
        have hfs1 : fs1 = writeFile fs r "" := by
          simpa [FileLogger.initFile, createFile, hl, handleCreateFileError] using h.symm
        subst hfs1
        simp [FileLogger.initFile, createFile, lookup_writeFile_self, handleCreateFileError]
    | some v =>
        have hfs1 : fs1 = fs := by
          simpa [FileLogger.initFile, createFile, hl, handleCreateFileError] using h.symm
        subst hfs1
        simp [FileLogger.initFile, createFile, hl, handleCreateFileError]
  · intro e lg msgs
    rfl

theorem swallow_modified_since_on_create_witness :
    (⟨"race", FileOperationResult.FILE_MODIFIED_SINCE⟩
        : FileOperationError).fileOperationResult = FileOperationResult.FILE_MODIFIED_SINCE
    ∧ handleCreateFileError ([] : FS)
        (Except.error ⟨"race", FileOperationResult.FILE_MODIFIED_SINCE⟩) = Except.ok ([] : FS)
    ∧ (⟨"denied", FileOperationResult.FILE_PERMISSION_DENIED⟩
        : FileOperationError).fileOperationResult ≠ FileOperationResult.FILE_MODIFIED_SINCE
    ∧ handleCreateFileError ([] : FS)
        (Except.error ⟨"denied", FileOperationResult.FILE_PERMISSION_DENIED⟩)
      = Except.error ⟨"denied", FileOperationResult.FILE_PERMISSION_DENIED⟩
    ∧ FileLogger.initFile ([] : FS) ⟨["logs"], "app.log"⟩
        = Except.ok (writeFile ([] : FS) ⟨["logs"], "app.log"⟩ "")
    ∧ FileLogger.initFile (writeFile ([] : FS) ⟨["logs"], "app.log"⟩ "") ⟨["logs"], "app.log"⟩
        = Except.ok (writeFile ([] : FS) ⟨["logs"], "app.log"⟩ "")
    ∧ FileLogger.runFrom
        (Except.error ⟨"denied", FileOperationResult.FILE_PERMISSION_DENIED⟩)
        { resource := ⟨["logs"], "app.log"⟩, donotUseFormatters := true } []
      = Except.error ⟨"denied", FileOperationResult.FILE_PERMISSION_DENIED⟩ := by
  refine ⟨rfl, swallow_modified_since_on_create.1 [] _ rfl, by decide,
    swallow_modified_since_on_create.2.1 [] _ (by decide), rfl,
    swallow_modified_since_on_create.2.2.1 [] ⟨["logs"], "app.log"⟩ _ rfl,
    swallow_modified_since_on_create.2.2.2 _ _ []⟩

/-- C2 counterexample: with size ceiling 10 and raw (unformatted) appending,
logging the 10-byte message "aaaaaaaaaa" and then "b" does not rotate — the
check is strict, and a content of length exactly 10 does not exceed 10 — so
backup slot 1 stays absent and the primary file holds "aaaaaaaaaab" rather
than the rendering of "b" alone. -/
theorem rotation_not_triggered_at_exact_ceiling :
    runPrimaryContent
        { resource := ⟨["logs"], "app.log"⟩, donotUseFormatters := true, maxFileSize := 10 } []
        [⟨⟨2024, 0, 5, 9, 7, 3, 42⟩, LogLevel.Info, "aaaaaaaaaa"⟩,
         ⟨⟨2024, 0, 5, 9, 7, 3, 42⟩, LogLevel.Info, "b"⟩] = Except.ok "aaaaaaaaaab"
    ∧ runFileEntry
        { resource := ⟨["logs"], "app.log"⟩, donotUseFormatters := true, maxFileSize := 10 } []
        [⟨⟨2024, 0, 5, 9, 7, 3, 42⟩, LogLevel.Info, "aaaaaaaaaa"⟩,
         ⟨⟨2024, 0, 5, 9, 7, 3, 42⟩, LogLevel.Info, "b"⟩]
        (joinPath ["logs"] ("app.log" ++ "_" ++ toString 1)) = none
    ∧ ("aaaaaaaaaab" : String) ≠ "b" := by
  exact ⟨rfl, rfl, by decide⟩

/-- C2 (amended): whenever the content loaded before appending has length
strictly exceeding the ceiling, the task first writes that exact pre-rotation
content to the current backup slot and resets content to empty before
appending, so the backup equals the pre-rotation content exactly and the
primary file afterwards contains only the newly rendered entry.  Because the
check is strict, the ceiling-10 scenario needs an 11-byte first message:
after logging "aaaaaaaaaaa" (11 bytes) the next write of "b" rotates, backup
slot 1 holds "aaaaaaaaaaa", and the primary holds only the rendering of "b". -/
theorem rotation_copies_backup_then_resets (lg : FileLogger) (fs : FS) (now : DateTime)
    (level : LogLevel) (message : String)
    (hrot : (loadContent fs lg.resource).length > lg.maxFileSize) :
    readFile (FileLogger.logTask lg fs now level message).2
        (FileLogger.getBackupResource lg).1 = Except.ok (loadContent fs lg.resource)
    ∧ readFile (FileLogger.logTask lg fs now level message).2 lg.resource
        = Except.ok (renderEntry lg.donotUseFormatters now level message)
    ∧ (FileLogger.logTask lg fs now level message).1 = (FileLogger.getBackupResource lg).2
    ∧ runFileEntry
        { resource := ⟨["logs"], "app.log"⟩, donotUseFormatters := true, maxFileSize := 10 } []
        [⟨⟨2024, 0, 5, 9, 7, 3, 42⟩, LogLevel.Info, "aaaaaaaaaaa"⟩,
         ⟨⟨2024, 0, 5, 9, 7, 3, 42⟩, LogLevel.Info, "b"⟩]
        (joinPath ["logs"] ("app.log" ++ "_" ++ toString 1))
      = some (Except.ok "aaaaaaaaaaa")
    ∧ runPrimaryContent
        { resource := ⟨["logs"], "app.log"⟩, donotUseFormatters := true, maxFileSize := 10 } []
        [⟨⟨2024, 0, 5, 9, 7, 3, 42⟩, LogLevel.Info, "aaaaaaaaaaa"⟩,
         ⟨⟨2024, 0, 5, 9, 7, 3, 42⟩, LogLevel.Info, "b"⟩] = Except.ok "b" := by
  have hne := backupResource_ne_resource lg
  have htask : FileLogger.logTask lg fs now level message
      = ((FileLogger.getBackupResource lg).2,
          writeFile (writeFile fs (FileLogger.getBackupResource lg).1
              (loadContent fs lg.resource)) lg.resource
            ("" ++ renderEntry lg.donotUseFormatters now level message)) := by
    simp [FileLogger.logTask, hrot]
  refine ⟨?_, ?_, ?_, rfl, rfl⟩
  · rw [htask]
    rw [readFile_writeFile_other _ lg.resource (FileLogger.getBackupResource lg).1 _
      (fun h => hne h.symm)]
    exact readFile_writeFile_self _ _ _
  · rw [htask]
    rw [readFile_writeFile_self, String.empty_append]
  · rw [htask]

theorem rotation_copies_backup_then_resets_witness :
    (loadContent [(⟨["logs"], "app.log"⟩, Except.ok "aaaaaaaaaaa")]
        (⟨["logs"], "app.log"⟩ : URI)).length > 10
    ∧ readFile (FileLogger.logTask
          { resource := ⟨["logs"], "app.log"⟩, donotUseFormatters := true, maxFileSize := 10 }
          [(⟨["logs"], "app.log"⟩, Except.ok "aaaaaaaaaaa")]
          ⟨2024, 0, 5, 9, 7, 3, 42⟩ LogLevel.Info "b").2
        (FileLogger.getBackupResource
          { resource := ⟨["logs"], "app.log"⟩, donotUseFormatters := true,
            maxFileSize := 10 }).1
      = Except.ok (loadContent [(⟨["logs"], "app.log"⟩, Except.ok "aaaaaaaaaaa")]
          (⟨["logs"], "app.log"⟩ : URI))
    ∧ readFile (FileLogger.logTask
          { resource := ⟨["logs"], "app.log"⟩, donotUseFormatters := true, maxFileSize := 10 }
          [(⟨["logs"], "app.log"⟩, Except.ok "aaaaaaaaaaa")]
          ⟨2024, 0, 5, 9, 7, 3, 42⟩ LogLevel.Info "b").2
        (⟨["logs"], "app.log"⟩ : URI)
      = Except.ok (renderEntry true ⟨2024, 0, 5, 9, 7, 3, 42⟩ LogLevel.Info "b") := by
  have h := rotation_copies_backup_then_resets
    { resource := ⟨["logs"], "app.log"⟩, donotUseFormatters := true, maxFileSize := 10 }
    [(⟨["logs"], "app.log"⟩, Except.ok "aaaaaaaaaaa")]
    ⟨2024, 0, 5, 9, 7, 3, 42⟩ LogLevel.Info "b" (by decide)
  exact ⟨by decide, h.1, h.2.1⟩

/-- C1: messages submitted in order are rendered into the backing store in
that same submission order — each queued task awaits initialization inside
the task and the queue runs tasks strictly one at a time in FIFO submission
order — so, starting from a backing store that is either not yet created or
created empty, and with the rendered entries fitting the size ceiling, the
final primary content equals the in-order concatenation of the rendered
entries. -/
theorem fileLogger_entries_in_submission_order (lg : FileLogger) (fs : FS) (msgs : List Msg)
    (hready : FS.lookup fs lg.resource = none
      ∨ FS.lookup fs lg.resource = some (Except.ok ""))
    (hsize : (renderAll lg.donotUseFormatters msgs).length ≤ lg.maxFileSize) :
    ∃ lgf fsf, FileLogger.run lg fs msgs = Except.ok (lgf, fsf)
      ∧ lgf = lg
      ∧ readFile fsf lg.resource = Except.ok (renderAll lg.donotUseFormatters msgs) := by
  cases hready with
  | inl h =>
      have hinit : FileLogger.initFile fs lg.resource
          = Except.ok (writeFile fs lg.resource "") := by
        simp [FileLogger.initFile, createFile, h, handleCreateFileError]
      have hmain := processAll_content lg msgs (writeFile fs lg.resource "") ""
        (readFile_writeFile_self _ _ _) (by simpa using hsize)
      refine ⟨(FileLogger.processAll lg (writeFile fs lg.resource "") msgs).1,
        (FileLogger.processAll lg (writeFile fs lg.resource "") msgs).2, ?_, hmain.1, ?_⟩
      · rw [FileLogger.run, hinit]
        rfl
      · rw [hmain.2, String.empty_append]
  | inr h =>
      have hinit : FileLogger.initFile fs lg.resource = Except.ok fs := by
        simp [FileLogger.initFile, createFile, h, handleCreateFileError]
      have hc : readFile fs lg.resource = Except.ok "" := by
        simp [readFile, h]
      have hmain := processAll_content lg msgs fs "" hc (by simpa using hsize)
      refine ⟨(FileLogger.processAll lg fs msgs).1,
        (FileLogger.processAll lg fs msgs).2, ?_, hmain.1, ?_⟩
      · rw [FileLogger.run, hinit]
        rfl
      · rw [hmain.2, String.empty_append]

theorem fileLogger_entries_in_submission_order_witness :
    (FS.lookup ([] : FS) (⟨["logs"], "x.log"⟩ : URI) = none
      ∨ FS.lookup ([] : FS) (⟨["logs"], "x.log"⟩ : URI) = some (Except.ok ""))
    ∧ (renderAll true
        [⟨⟨2024, 0, 5, 9, 7, 3, 42⟩, LogLevel.Info, "x"⟩,
         ⟨⟨2024, 0, 5, 9, 7, 3, 42⟩, LogLevel.Info, "y"⟩]).length ≤ MAX_FILE_SIZE
    ∧ ∃ lgf fsf,
        FileLogger.run { resource := ⟨["logs"], "x.log"⟩, donotUseFormatters := true } []
          [⟨⟨2024, 0, 5, 9, 7, 3, 42⟩, LogLevel.Info, "x"⟩,
           ⟨⟨2024, 0, 5, 9, 7, 3, 42⟩, LogLevel.Info, "y"⟩] = Except.ok (lgf, fsf)
        ∧ lgf = { resource := ⟨["logs"], "x.log"⟩, donotUseFormatters := true }
        ∧ readFile fsf (⟨["logs"], "x.log"⟩ : URI)
            = Except.ok (renderAll true
                [⟨⟨2024, 0, 5, 9, 7, 3, 42⟩, LogLevel.Info, "x"⟩,
                 ⟨⟨2024, 0, 5, 9, 7, 3, 42⟩, LogLevel.Info, "y"⟩]) := by
  exact ⟨Or.inl rfl, by decide,
    fileLogger_entries_in_submission_order
      { resource := ⟨["logs"], "x.log"⟩, donotUseFormatters := true } []
      [⟨⟨2024, 0, 5, 9, 7, 3, 42⟩, LogLevel.Info, "x"⟩,
       ⟨⟨2024, 0, 5, 9, 7, 3, 42⟩, LogLevel.Info, "y"⟩]
      (Or.inl rfl) (by decide)⟩

/-- C8: every message logged before the `createLogger` channel call completes
is held in the ordered in-memory buffer; on completion the whole buffer is
flushed to the remote `log` operation in original arrival order exactly once;
every later message is forwarded directly as its own `log` call; the buffer
never grows after the switch, and the concatenated payloads of the issued
`log` calls preserve arrival order across the switch boundary. -/
theorem proxy_logger_buffer_flush_passthrough (file : URI) (pre post : List LoggerEvent)
    (hpre : onlyMsgs pre = true) (hpost : onlyMsgs post = true) :
    (Logger.runEvents (Logger.create file) (pre ++ LoggerEvent.created :: post)).sent
      = ChannelCall.createLogger file
          :: ChannelCall.log file (msgsOf pre)
          :: (msgsOf post).map (fun p => ChannelCall.log file [p])
    ∧ (Logger.runEvents (Logger.create file) (pre ++ LoggerEvent.created :: post)).buffer
        = msgsOf pre
    ∧ (Logger.runEvents (Logger.create file)
        (pre ++ LoggerEvent.created :: post)).isLoggerCreated = true
    ∧ logPayloads (Logger.runEvents (Logger.create file)
        (pre ++ LoggerEvent.created :: post)).sent = msgsOf pre ++ msgsOf post := by
  have hsplit : Logger.runEvents (Logger.create file) (pre ++ LoggerEvent.created :: post)
      = Logger.runEvents
          (Logger.step (Logger.runEvents (Logger.create file) pre) LoggerEvent.created)
          post := by
    simp [Logger.runEvents, List.foldl_append]
  have hphase1 : Logger.runEvents (Logger.create file) pre
      = { file := file, isLoggerCreated := false, buffer := msgsOf pre,
          sent := [ChannelCall.createLogger file] } := by
    rw [runEvents_buffer_phase pre (Logger.create file) hpre rfl]
    rfl
  have hmid : Logger.step (Logger.runEvents (Logger.create file) pre) LoggerEvent.created
      = { file := file, isLoggerCreated := true, buffer := msgsOf pre,
          sent := [ChannelCall.createLogger file, ChannelCall.log file (msgsOf pre)] } := by
    rw [hphase1]
    rfl
  have hfinal : Logger.runEvents (Logger.create file) (pre ++ LoggerEvent.created :: post)
      = { file := file, isLoggerCreated := true, buffer := msgsOf pre,
          sent := ChannelCall.createLogger file
            :: ChannelCall.log file (msgsOf pre)
            :: (msgsOf post).map (fun p => ChannelCall.log file [p]) } := by
    rw [hsplit, hmid, runEvents_passthrough_phase post _ hpost rfl]
    rfl
  rw [hfinal]
  refine ⟨rfl, rfl, rfl, ?_⟩
  simp [logPayloads, logPayloads_map_singleton]

theorem proxy_logger_buffer_flush_passthrough_witness :
    onlyMsgs [LoggerEvent.msg LogLevel.Info "a", LoggerEvent.msg LogLevel.Error "b"] = true
    ∧ onlyMsgs [LoggerEvent.msg LogLevel.Debug "c"] = true
    ∧ (Logger.runEvents (Logger.create ⟨["logs"], "x.log"⟩)
          ([LoggerEvent.msg LogLevel.Info "a", LoggerEvent.msg LogLevel.Error "b"]
            ++ LoggerEvent.created :: [LoggerEvent.msg LogLevel.Debug "c"])).sent
        = ChannelCall.createLogger ⟨["logs"], "x.log"⟩
            :: ChannelCall.log ⟨["logs"], "x.log"⟩
                (msgsOf [LoggerEvent.msg LogLevel.Info "a", LoggerEvent.msg LogLevel.Error "b"])
            :: (msgsOf [LoggerEvent.msg LogLevel.Debug "c"]).map
                (fun p => ChannelCall.log ⟨["logs"], "x.log"⟩ [p])
    ∧ logPayloads (Logger.runEvents (Logger.create ⟨["logs"], "x.log"⟩)
          ([LoggerEvent.msg LogLevel.Info "a", LoggerEvent.msg LogLevel.Error "b"]
            ++ LoggerEvent.created :: [LoggerEvent.msg LogLevel.Debug "c"])).sent
        = msgsOf [LoggerEvent.msg LogLevel.Info "a", LoggerEvent.msg LogLevel.Error "b"]
            ++ msgsOf [LoggerEvent.msg LogLevel.Debug "c"] := by
  have h := proxy_logger_buffer_flush_passthrough ⟨["logs"], "x.log"⟩
    [LoggerEvent.msg LogLevel.Info "a", LoggerEvent.msg LogLevel.Error "b"]
    [LoggerEvent.msg LogLevel.Debug "c"] rfl rfl
  exact ⟨rfl, rfl, h.1, h.2.2.2⟩

end VsLog
